import Mathlib

/-!
# Open3D point-cloud I/O: the dispatch layer

A shallow embedding of `Open3D/IO/ClassIO/PointCloudIO.{h,cpp}` and of the
argument table of `Benchmark/IO/PointCloudIO.cpp`.

* The twelve format codecs (`ReadPointCloudFromXYZ`, `WritePointCloudToPCD`, ...) are
  only declared in the header; they are taken as an environment `Codecs σ`, where `σ`
  is the state outside the process (the file system).
* A call of a function that takes `geometry::PointCloud &` returns the cloud it leaves
  behind; a function that takes `const geometry::PointCloud &` cannot change it.
* Every invocation of a registered codec is recorded, in order, in the `calls` field
  of the outcome, at the place where the source evaluates `map_itr->second(...)`.
* `utility::LogDebug` and `utility::LogWarning` only print and are left out.
-/

namespace open3d

/-! ## Data model -/

/-- A `double`, kept up to what `std::isnan` and `std::isinf` can observe: a finite
value `mantissa * 2 ^ exponent`, a NaN, or an infinity with its sign. -/
inductive Double where
  | finite (mantissa : Int) (exponent : Int)
  | nan
  | inf (negative : Bool)
  deriving DecidableEq, Repr

/-- The test `std::isnan`. -/
def Double.isnan : Double → Bool
  | .nan => true
  | _ => false

/-- The test `std::isinf`. -/
def Double.isinf : Double → Bool
  | .inf _ => true
  | _ => false

/-- The type `Eigen::Vector3d`. -/
structure Vector3d where
  x : Double
  y : Double
  z : Double
  deriving DecidableEq, Repr

/-- The three attribute arrays of `geometry::PointCloud`. -/
structure PointCloud where
  points_ : List Vector3d := []
  normals_ : List Vector3d := []
  colors_ : List Vector3d := []
  deriving DecidableEq, Repr

/-- A value of type `std::function<void(double)>`: the default-constructed (empty)
one, a callable supplied by the caller, or a `utility::ConsoleProgressUpdater` built
from its two constructor arguments. -/
inductive ProgressFn where
  | empty
  | callback (id : Nat)
  | ConsoleProgressUpdater (progress_info : String) (active : Bool)
  deriving DecidableEq, Repr

/-- The struct `ReadPointCloudParams` with its member initialisers. -/
structure ReadPointCloudParams where
  format : String := "auto"
  remove_nan_points : Bool := true
  remove_infinite_points : Bool := true
  update_progress : ProgressFn := ProgressFn.empty
  deriving DecidableEq, Repr

/-- The enum `WritePointCloudParams::IsAscii : bool`. -/
inductive IsAscii where
  | Binary
  | Ascii
  deriving DecidableEq, Repr

/-- The enum `WritePointCloudParams::Compressed : bool`. -/
inductive Compressed where
  | Uncompressed
  | Compressed
  deriving DecidableEq, Repr

/-- The conversion `WritePointCloudParams::IsAscii(b)` of a `bool`. -/
def IsAscii.ofBool : Bool → IsAscii
  | false => IsAscii.Binary
  | true => IsAscii.Ascii

/-- The conversion `WritePointCloudParams::Compressed(b)` of a `bool`. -/
def Compressed.ofBool : Bool → open3d.Compressed
  | false => open3d.Compressed.Uncompressed
  | true => open3d.Compressed.Compressed

/-- The struct `WritePointCloudParams` with its member initialisers. -/
structure WritePointCloudParams where
  write_ascii : IsAscii := IsAscii.Binary
  compressed : Compressed := Compressed.Uncompressed
  update_progress : ProgressFn := ProgressFn.empty
  deriving DecidableEq, Repr

/-! ## Helpers that live outside the given sources -/

/-- Modelled from the spec: the lower-casing step of the absent
`GetFileExtensionInLowerCase`; `::tolower` applied to every character, which changes
ASCII letters only. -/
def ToLower (s : String) : String :=
  String.mk (s.toList.map Char.toLower)

/-- Modelled from the spec: the extension step of the absent
`GetFileExtensionInLowerCase`. The extension of a file name as it is spelt: the text
after the last `.` of `filename`; the empty string when there is no `.` or when a
path separator follows the last `.` (the dot then belongs to a directory). -/
def rawFileExtension (filename : String) : String :=
  let cs := filename.toList
  if cs.contains (Char.ofNat 46) then
    let ext := (cs.reverse.takeWhile (fun c => c != Char.ofNat 46)).reverse
    if ext.any (fun c => c == Char.ofNat 47 || c == Char.ofNat 92) then ""
    else String.mk ext
  else ""

/-- Modelled from the spec: `utility::filesystem::GetFileExtensionInLowerCase`
(Open3D/Utility/FileSystem) is not among the sources. The spec calls its result the
lower-cased extension of the file name: the extension as spelt in `filename`, with
ASCII letters lower-cased. -/
def GetFileExtensionInLowerCase (filename : String) : String :=
  ToLower (rawFileExtension filename)

/-- Modelled from the spec: `utility::ToUpper` (Open3D/Utility/Helper) is not among
the sources; it is used only for the text of the console progress bar. Upper-cases
ASCII letters. -/
def ToUpper (s : String) : String :=
  String.mk (s.toList.map Char.toUpper)

/-- Whether `RemoveNonFinitePoints` drops a point: it has a NaN coordinate and the
NaN flag is set, or an infinite coordinate and the infinity flag is set. -/
def Vector3d.isRemoved (remove_nan remove_infinite : Bool) (p : Vector3d) : Bool :=
  (remove_nan && (p.x.isnan || p.y.isnan || p.z.isnan)) ||
  (remove_infinite && (p.x.isinf || p.y.isinf || p.z.isinf))

/-- Keep the entries of `xs` whose index is marked `true` in `keep`; entries beyond
the end of `keep` have no point and stay. -/
def keepMarked {α : Type} : List Bool → List α → List α
  | [], xs => xs
  | _ :: _, [] => []
  | k :: ks, x :: xs => if k then x :: keepMarked ks xs else keepMarked ks xs

/-- Modelled from the spec: `geometry::PointCloud::RemoveNonFinitePoints`
(Open3D/Geometry/PointCloud) is not among the sources. Spec 4.4: every point whose
position has a NaN (NaN flag set) or an infinite component (infinity flag set) is
removed together with the entries at the same index of `normals_` and `colors_`; the
order of the survivors is kept; with both flags false the cloud is unmodified. -/
def PointCloud.RemoveNonFinitePoints (pc : PointCloud)
    (remove_nan remove_infinite : Bool) : PointCloud :=
  let keep := pc.points_.map (fun p => !(p.isRemoved remove_nan remove_infinite))
  { points_ := keepMarked keep pc.points_
    normals_ := keepMarked keep pc.normals_
    colors_ := keepMarked keep pc.colors_ }

/-! ## The codecs and the two registries -/

/-- The six read functions declared in `PointCloudIO.h`. -/
inductive ReadCodec where
  | ReadPointCloudFromXYZ
  | ReadPointCloudFromXYZN
  | ReadPointCloudFromXYZRGB
  | ReadPointCloudFromPLY
  | ReadPointCloudFromPCD
  | ReadPointCloudFromPTS
  deriving DecidableEq, Repr

/-- The six write functions declared in `PointCloudIO.h`. -/
inductive WriteCodec where
  | WritePointCloudToXYZ
  | WritePointCloudToXYZN
  | WritePointCloudToXYZRGB
  | WritePointCloudToPLY
  | WritePointCloudToPCD
  | WritePointCloudToPTS
  deriving DecidableEq, Repr

/-- The six on-disk formats the declared codecs are named after. -/
inductive FileFormat where
  | XYZ
  | XYZN
  | XYZRGB
  | PLY
  | PCD
  | PTS
  deriving DecidableEq, Repr

/-- The lower-case name of a format, as used for file extensions. -/
def FileFormat.extension : FileFormat → String
  | .XYZ => "xyz"
  | .XYZN => "xyzn"
  | .XYZRGB => "xyzrgb"
  | .PLY => "ply"
  | .PCD => "pcd"
  | .PTS => "pts"

/-- The format a read function is named after. -/
def ReadCodec.fileFormat : ReadCodec → FileFormat
  | .ReadPointCloudFromXYZ => FileFormat.XYZ
  | .ReadPointCloudFromXYZN => FileFormat.XYZN
  | .ReadPointCloudFromXYZRGB => FileFormat.XYZRGB
  | .ReadPointCloudFromPLY => FileFormat.PLY
  | .ReadPointCloudFromPCD => FileFormat.PCD
  | .ReadPointCloudFromPTS => FileFormat.PTS

/-- The format a write function is named after. -/
def WriteCodec.fileFormat : WriteCodec → FileFormat
  | .WritePointCloudToXYZ => FileFormat.XYZ
  | .WritePointCloudToXYZN => FileFormat.XYZN
  | .WritePointCloudToXYZRGB => FileFormat.XYZRGB
  | .WritePointCloudToPLY => FileFormat.PLY
  | .WritePointCloudToPCD => FileFormat.PCD
  | .WritePointCloudToPTS => FileFormat.PTS

/-- The bodies of the codecs: a read codec gets `(filename, pointcloud, params)` and
the outside state and returns its `bool`, the cloud it leaves and the new outside
state; a write codec cannot change the cloud. -/
structure Codecs (σ : Type) where
  read : ReadCodec → String → PointCloud → ReadPointCloudParams → σ → Bool × PointCloud × σ
  write : WriteCodec → String → PointCloud → WritePointCloudParams → σ → Bool × σ

/-- The map `file_extension_to_pointcloud_read_function`. -/
def file_extension_to_pointcloud_read_function : List (String × ReadCodec) :=
  [("xyz", ReadCodec.ReadPointCloudFromXYZ),
   ("xyzn", ReadCodec.ReadPointCloudFromXYZN),
   ("xyzrgb", ReadCodec.ReadPointCloudFromXYZRGB),
   ("ply", ReadCodec.ReadPointCloudFromPLY),
   ("pcd", ReadCodec.ReadPointCloudFromPCD),
   ("pts", ReadCodec.ReadPointCloudFromPTS)]

/-- The map `file_extension_to_pointcloud_write_function`. -/
def file_extension_to_pointcloud_write_function : List (String × WriteCodec) :=
  [("xyz", WriteCodec.WritePointCloudToXYZ),
   ("xyzn", WriteCodec.WritePointCloudToXYZN),
   ("xyzrgb", WriteCodec.WritePointCloudToXYZRGB),
   ("ply", WriteCodec.WritePointCloudToPLY),
   ("pcd", WriteCodec.WritePointCloudToPCD),
   ("pts", WriteCodec.WritePointCloudToPTS)]

/-- The call `map.find(key)`: the mapped value, or `none` for `map.end()`. -/
def find {β : Type} (map : List (String × β)) (key : String) : Option β :=
  match map with
  | [] => none
  | (k, v) :: rest => if k = key then some v else find rest key

/-! ## The dispatcher -/

/-- One recorded invocation of a read codec, with the arguments it was given. -/
structure ReadCall where
  codec : ReadCodec
  filename : String
  pointcloud : PointCloud
  params : ReadPointCloudParams
  deriving DecidableEq, Repr

/-- One recorded invocation of a write codec, with the arguments it was given. -/
structure WriteCall where
  codec : WriteCodec
  filename : String
  pointcloud : PointCloud
  params : WritePointCloudParams
  deriving DecidableEq, Repr

/-- What a read entry point leaves behind: the returned `bool`, the cloud behind the
reference argument, the outside state and the codec invocations made. -/
structure ReadOutcome (σ : Type) where
  result : Bool
  pointcloud : PointCloud
  world : σ
  calls : List ReadCall

/-- What a write entry point leaves behind; `pointcloud` is the `const` argument. -/
structure WriteOutcome (σ : Type) where
  result : Bool
  pointcloud : PointCloud
  world : σ
  calls : List WriteCall

/-- The function `io::ReadPointCloudP`. -/
def ReadPointCloudP {σ : Type} (env : Codecs σ) (filename : String)
    (pointcloud : PointCloud) (params : ReadPointCloudParams) (world : σ) :
    ReadOutcome σ :=
  let format :=
    if params.format = "auto" then GetFileExtensionInLowerCase filename else params.format
  match find file_extension_to_pointcloud_read_function format with
  | none => { result := false, pointcloud := pointcloud, world := world, calls := [] }
  | some codec =>
    let r := env.read codec filename pointcloud params world
    let success := r.1
    let filtered :=
      if params.remove_nan_points || params.remove_infinite_points then
        r.2.1.RemoveNonFinitePoints params.remove_nan_points params.remove_infinite_points
      else r.2.1
    { result := success, pointcloud := filtered, world := r.2.2,
      calls := [{ codec := codec, filename := filename, pointcloud := pointcloud,
                  params := params }] }

/-- The function `io::ReadPointCloud` (the flag-taking overload). -/
def ReadPointCloud {σ : Type} (env : Codecs σ) (filename : String)
    (pointcloud : PointCloud) (file_format : String) (remove_nan_points : Bool)
    (remove_infinite_points : Bool) (print_progress : Bool) (world : σ) :
    ReadOutcome σ :=
  let format :=
    if file_format = "auto" then GetFileExtensionInLowerCase filename else file_format
  let p : ReadPointCloudParams :=
    { format := format
      remove_nan_points := remove_nan_points
      remove_infinite_points := remove_infinite_points
      update_progress :=
        ProgressFn.ConsoleProgressUpdater
          ("Reading " ++ ToUpper format ++ " file: " ++ filename) print_progress }
  ReadPointCloudP env filename pointcloud p world

/-- The function `io::CreatePointCloudFromFile`: the call
`ReadPointCloud(filename, *pointcloud, format, print_progress)` binds its fourth
argument to the parameter `remove_nan_points`; `remove_infinite_points` and
`print_progress` of `ReadPointCloud` take their defaults `true` and `false`. The
`bool` returned by `ReadPointCloud` is dropped. -/
def CreatePointCloudFromFile {σ : Type} (env : Codecs σ) (filename : String)
    (format : String) (print_progress : Bool) (world : σ) : ReadOutcome σ :=
  let pointcloud : PointCloud := {}
  ReadPointCloud env filename pointcloud format print_progress true false world

/-- The function `io::WritePointCloudP`. -/
def WritePointCloudP {σ : Type} (env : Codecs σ) (filename : String)
    (pointcloud : PointCloud) (params : WritePointCloudParams) (world : σ) :
    WriteOutcome σ :=
  let format := GetFileExtensionInLowerCase filename
  match find file_extension_to_pointcloud_write_function format with
  | none => { result := false, pointcloud := pointcloud, world := world, calls := [] }
  | some codec =>
    let r := env.write codec filename pointcloud params world
    { result := r.1, pointcloud := pointcloud, world := r.2,
      calls := [{ codec := codec, filename := filename, pointcloud := pointcloud,
                  params := params }] }

/-- The function `io::WritePointCloud` (the flag-taking overload). -/
def WritePointCloud {σ : Type} (env : Codecs σ) (filename : String)
    (pointcloud : PointCloud) (write_ascii : Bool) (compressed : Bool)
    (print_progress : Bool) (world : σ) : WriteOutcome σ :=
  let format := GetFileExtensionInLowerCase filename
  let p : WritePointCloudParams :=
    { write_ascii := IsAscii.ofBool write_ascii
      compressed := Compressed.ofBool compressed
      update_progress :=
        ProgressFn.ConsoleProgressUpdater
          ("Reading " ++ ToUpper format ++ " file: " ++ filename) print_progress }
  WritePointCloudP env filename pointcloud p world

/-! ## The benchmark table -/

namespace benchmarks

/-- The enum `Compare` of the benchmark: which attributes besides the points are
compared after a round trip. -/
inductive Compare where
  | NONE
  | NORMALS
  | COLORS
  | NORMALS_AND_COLORS
  deriving DecidableEq, Repr

/-- The benchmark enum `IsAscii : bool`. -/
inductive IsAscii where
  | BINARY
  | ASCII
  deriving DecidableEq, Repr

/-- The benchmark enum `Compressed : bool`. -/
inductive Compressed where
  | UNCOMPRESSED
  | COMPRESSED
  deriving DecidableEq, Repr

/-- The cast `bool(args.write_ascii)`. -/
def IsAscii.toBool : IsAscii → Bool
  | .BINARY => false
  | .ASCII => true

/-- The cast `bool(args.compressed)`. -/
def Compressed.toBool : Compressed → Bool
  | .UNCOMPRESSED => false
  | .COMPRESSED => true

/-- The struct `ReadWritePCArgs`. -/
structure ReadWritePCArgs where
  filename : String
  write_ascii : IsAscii
  compressed : Compressed
  compare : Compare
  deriving DecidableEq, Repr

/-- The table `g_pc_args`. -/
def g_pc_args : List ReadWritePCArgs :=
  [⟨"testbu.pcd", IsAscii.BINARY, Compressed.UNCOMPRESSED, Compare.NORMALS_AND_COLORS⟩,
   ⟨"testau.pcd", IsAscii.ASCII, Compressed.UNCOMPRESSED, Compare.NORMALS_AND_COLORS⟩,
   ⟨"testbc.pcd", IsAscii.BINARY, Compressed.COMPRESSED, Compare.NORMALS_AND_COLORS⟩,
   ⟨"testac.pcd", IsAscii.ASCII, Compressed.COMPRESSED, Compare.NORMALS_AND_COLORS⟩,
   ⟨"testb.ply", IsAscii.BINARY, Compressed.UNCOMPRESSED, Compare.NORMALS_AND_COLORS⟩,
   ⟨"testa.ply", IsAscii.ASCII, Compressed.UNCOMPRESSED, Compare.NORMALS_AND_COLORS⟩,
   ⟨"test.pts", IsAscii.BINARY, Compressed.UNCOMPRESSED, Compare.COLORS⟩,
   ⟨"test.xyz", IsAscii.BINARY, Compressed.UNCOMPRESSED, Compare.NONE⟩,
   ⟨"test.xyzn", IsAscii.BINARY, Compressed.UNCOMPRESSED, Compare.NORMALS⟩,
   ⟨"test.xyzrgb", IsAscii.BINARY, Compressed.UNCOMPRESSED, Compare.COLORS⟩]

end benchmarks

/-! ## Vocabulary of the specification -/

/-- The effective format of a read: the lower-cased extension of the file name when
`config.format` is `"auto"`, otherwise `config.format` itself. -/
def effectiveFormat (filename : String) (config : ReadPointCloudParams) : String :=
  if config.format = "auto" then GetFileExtensionInLowerCase filename else config.format

/-- The keys of the read registry. -/
def readKeys : List String :=
  file_extension_to_pointcloud_read_function.map Prod.fst

/-- The keys of the write registry. -/
def writeKeys : List String :=
  file_extension_to_pointcloud_write_function.map Prod.fst

/-- Two strings are equal up to ASCII letter case. -/
def eqUpToAsciiCase (f e : String) : Prop :=
  ToLower f = ToLower e

instance (f e : String) : Decidable (eqUpToAsciiCase f e) :=
  inferInstanceAs (Decidable (ToLower f = ToLower e))

/-! ## Sample environments -/

/-- Codecs that ignore the file: every read codec returns `ok` and leaves the cloud
`left` behind, every write codec returns `ok`. -/
def stubCodecs (ok : Bool) (left : PointCloud) : Codecs Unit :=
  { read := fun _ _ _ _ w => (ok, left, w)
    write := fun _ _ _ _ w => (ok, w) }

/-- A point with a NaN coordinate. -/
def nanPoint : Vector3d :=
  { x := Double.nan, y := Double.finite 0 0, z := Double.finite 0 0 }

/-- The point at the origin. -/
def origin : Vector3d :=
  { x := Double.finite 0 0, y := Double.finite 0 0, z := Double.finite 0 0 }

/-! ## The two ways of calling the reader -/

/-- The struct `p` that `ReadPointCloud` fills in before it calls `ReadPointCloudP`
(source lines 115-128): the format already resolved, the two flags, and the console
progress updater. -/
def flagParams (filename file_format : String)
    (remove_nan_points remove_infinite_points print_progress : Bool) :
    ReadPointCloudParams :=
  { format :=
      if file_format = "auto" then GetFileExtensionInLowerCase filename else file_format
    remove_nan_points := remove_nan_points
    remove_infinite_points := remove_infinite_points
    update_progress :=
      ProgressFn.ConsoleProgressUpdater
        ("Reading " ++
          ToUpper (if file_format = "auto" then GetFileExtensionInLowerCase filename
                   else file_format) ++ " file: " ++ filename) print_progress }

/-- The params `{format, remove_nan, remove_inf}` of a direct call of
`ReadPointCloudP`: the format string as the caller gives it, the two flags, and some
progress function. -/
def structParams (format : String) (remove_nan remove_inf : Bool) (progress : ProgressFn) :
    ReadPointCloudParams :=
  { format := format
    remove_nan_points := remove_nan
    remove_infinite_points := remove_inf
    update_progress := progress }

/-- The filtering that `ReadPointCloudP` applies to the cloud a codec leaves, as a
function of the two flags (source lines 103-106). -/
def postReadFilter (remove_nan remove_inf : Bool) (pc : PointCloud) : PointCloud :=
  if remove_nan || remove_inf then pc.RemoveNonFinitePoints remove_nan remove_inf else pc

/-- The bodies of the read codecs are not among the sources. This is the condition on
them under which the two entry points can be compared: what a read codec returns
(its `bool`, the cloud it leaves, the outside state) depends on its `params` through
the two removal flags at most. The format in `params` is resolved by the dispatcher
and the progress function is only notified, so a codec has no use for either. -/
def Codecs.readersUseOnlyFlags {σ : Type} (env : Codecs σ) : Prop :=
  ∀ (codec : ReadCodec) (filename : String) (pointcloud : PointCloud)
    (p q : ReadPointCloudParams) (world : σ),
    p.remove_nan_points = q.remove_nan_points →
    p.remove_infinite_points = q.remove_infinite_points →
    env.read codec filename pointcloud p world = env.read codec filename pointcloud q world

/-! ## Lemmas on the registries -/

theorem find_eq_none_iff {β : Type} (map : List (String × β)) (key : String) :
    find map key = none ↔ key ∉ map.map Prod.fst := by
  induction map with
  | nil => simp [find]
  | cons e rest ih =>
    obtain ⟨k, v⟩ := e
    by_cases hk : k = key
    · simp [find, hk]
    · have hk' : ¬ key = k := fun h => hk h.symm
      simp [find, hk, hk', ih]

theorem find_read_lower (key : String) (codec : ReadCodec)
    (h : find file_extension_to_pointcloud_read_function key = some codec) :
    ToLower key = key := by
  simp only [file_extension_to_pointcloud_read_function, find] at h
  repeat' split at h
  all_goals first
    | (subst_vars; decide)
    | cases h

theorem find_read_key (key : String) (codec : ReadCodec)
    (h : find file_extension_to_pointcloud_read_function key = some codec) :
    key = codec.fileFormat.extension := by
  simp only [file_extension_to_pointcloud_read_function, find] at h
  repeat' split at h
  all_goals first
    | (cases h; subst_vars; rfl)
    | cases h

theorem find_write_key (key : String) (codec : WriteCodec)
    (h : find file_extension_to_pointcloud_write_function key = some codec) :
    key = codec.fileFormat.extension := by
  simp only [file_extension_to_pointcloud_write_function, find] at h
  repeat' split at h
  all_goals first
    | (cases h; subst_vars; rfl)
    | cases h

theorem find_read_inj (a b : String) (codec : ReadCodec)
    (ha : find file_extension_to_pointcloud_read_function a = some codec)
    (hb : find file_extension_to_pointcloud_read_function b = some codec) : a = b :=
  (find_read_key a codec ha).trans (find_read_key b codec hb).symm

theorem ReadPointCloudP_calls_ne_nil_iff {σ : Type} (env : Codecs σ) (filename : String)
    (pointcloud : PointCloud) (params : ReadPointCloudParams) (world : σ) :
    (ReadPointCloudP env filename pointcloud params world).calls ≠ [] ↔
      effectiveFormat filename params ∈ readKeys := by
  have hkey := find_eq_none_iff file_extension_to_pointcloud_read_function
    (effectiveFormat filename params)
  unfold effectiveFormat at hkey ⊢
  unfold ReadPointCloudP
  cases hf : find file_extension_to_pointcloud_read_function
      (if params.format = "auto" then GetFileExtensionInLowerCase filename
       else params.format) with
  | none =>
    have := hkey.mp hf
    simp [hf, this, readKeys]
  | some c =>
    have : ¬ (find file_extension_to_pointcloud_read_function
      (if params.format = "auto" then GetFileExtensionInLowerCase filename
       else params.format) = none) := by simp [hf]
    have hin := not_not.mp (fun hn => this (hkey.mpr hn))
    simp [hf, hin, readKeys]

theorem WritePointCloudP_calls_ne_nil_iff {σ : Type} (env : Codecs σ) (filename : String)
    (pointcloud : PointCloud) (params : WritePointCloudParams) (world : σ) :
    (WritePointCloudP env filename pointcloud params world).calls ≠ [] ↔
      GetFileExtensionInLowerCase filename ∈ writeKeys := by
  have hkey := find_eq_none_iff file_extension_to_pointcloud_write_function
    (GetFileExtensionInLowerCase filename)
  unfold WritePointCloudP
  cases hf : find file_extension_to_pointcloud_write_function
      (GetFileExtensionInLowerCase filename) with
  | none =>
    have := hkey.mp hf
    simp [hf, this, writeKeys]
  | some c =>
    have : ¬ (find file_extension_to_pointcloud_write_function
      (GetFileExtensionInLowerCase filename) = none) := by simp [hf]
    have hin := not_not.mp (fun hn => this (hkey.mpr hn))
    simp [hf, hin, writeKeys]

theorem effectiveFormat_flagParams (filename file_format : String)
    (remove_nan remove_inf print_progress : Bool) (progress : ProgressFn) :
    effectiveFormat filename
        (flagParams filename file_format remove_nan remove_inf print_progress) =
      effectiveFormat filename (structParams file_format remove_nan remove_inf progress) := by
  unfold effectiveFormat flagParams structParams
  by_cases hauto : file_format = "auto"
  · simp only [hauto, if_true, ite_self]
  · simp only [hauto, if_false]

theorem ReadPointCloudP_of_find_none {σ : Type} (env : Codecs σ) (filename : String)
    (pointcloud : PointCloud) (params : ReadPointCloudParams) (world : σ)
    (h : find file_extension_to_pointcloud_read_function (effectiveFormat filename params)
      = none) :
    ReadPointCloudP env filename pointcloud params world =
      { result := false, pointcloud := pointcloud, world := world, calls := [] } := by
  unfold effectiveFormat at h
  simp only [ReadPointCloudP, h]

theorem ReadPointCloudP_of_find_some {σ : Type} (env : Codecs σ) (filename : String)
    (pointcloud : PointCloud) (params : ReadPointCloudParams) (world : σ)
    (codec : ReadCodec)
    (h : find file_extension_to_pointcloud_read_function (effectiveFormat filename params)
      = some codec) :
    ReadPointCloudP env filename pointcloud params world =
      { result := (env.read codec filename pointcloud params world).1
        pointcloud :=
          postReadFilter params.remove_nan_points params.remove_infinite_points
            (env.read codec filename pointcloud params world).2.1
        world := (env.read codec filename pointcloud params world).2.2
        calls := [{ codec := codec, filename := filename, pointcloud := pointcloud,
                    params := params }] } := by
  unfold effectiveFormat at h
  simp only [ReadPointCloudP, h, postReadFilter]

theorem ReadPointCloud_eq_ReadPointCloudP {σ : Type} (env : Codecs σ) (filename : String)
    (pointcloud : PointCloud) (file_format : String)
    (remove_nan remove_inf print_progress : Bool) (world : σ) :
    ReadPointCloud env filename pointcloud file_format remove_nan remove_inf print_progress
        world =
      ReadPointCloudP env filename pointcloud
        (flagParams filename file_format remove_nan remove_inf print_progress) world :=
  rfl

/-! ## The read path -/

/-- C1: when the effective format (the lower-cased extension of the file name for
`config.format = "auto"`, otherwise `config.format` itself) is not a key of the read
registry, `ReadPointCloudP` returns false, invokes no read codec and leaves the
output cloud, and the outside state, exactly as they were: no filtering is applied. -/
theorem ReadPointCloudP_unregistered {σ : Type} (env : Codecs σ) (filename : String)
    (pointcloud : PointCloud) (params : ReadPointCloudParams) (world : σ)
    (h : effectiveFormat filename params ∉ readKeys) :
    (ReadPointCloudP env filename pointcloud params world).result = false ∧
    (ReadPointCloudP env filename pointcloud params world).calls = [] ∧
    (ReadPointCloudP env filename pointcloud params world).pointcloud = pointcloud ∧
    (ReadPointCloudP env filename pointcloud params world).world = world := by
  have hnone : find file_extension_to_pointcloud_read_function
      (if params.format = "auto" then GetFileExtensionInLowerCase filename
       else params.format) = none :=
    (find_eq_none_iff _ _).mpr h
  simp only [ReadPointCloudP, hnone, and_self]

/-- Witness of C1: an unknown extension under `"auto"`, read into a cloud that holds
a NaN point, with codecs that would succeed if they were called. -/
theorem ReadPointCloudP_unregistered_witness :
    effectiveFormat "scan.obj" {} ∉ readKeys ∧
    ((ReadPointCloudP (stubCodecs true {}) "scan.obj" { points_ := [nanPoint] } {} ()).result
        = false ∧
      (ReadPointCloudP (stubCodecs true {}) "scan.obj" { points_ := [nanPoint] } {} ()).calls
        = [] ∧
      (ReadPointCloudP (stubCodecs true {}) "scan.obj" { points_ := [nanPoint] } {}
        ()).pointcloud = { points_ := [nanPoint] } ∧
      (ReadPointCloudP (stubCodecs true {}) "scan.obj" { points_ := [nanPoint] } {} ()).world
        = ()) :=
  ⟨by decide,
   ReadPointCloudP_unregistered (stubCodecs true {}) "scan.obj" { points_ := [nanPoint] } {}
     () (by decide)⟩

/-- C2: `ReadPointCloudP` returns true exactly when the effective format is a
registered key and the registered read codec returned true; whenever the format is
registered that codec is invoked once, with the caller's `(filename, cloud, params)`,
and the returned `bool` is the codec's `bool` whatever the filter flags in `params`
are; when the format is not registered the result is false. -/
theorem ReadPointCloudP_result {σ : Type} (env : Codecs σ) (filename : String)
    (pointcloud : PointCloud) (params : ReadPointCloudParams) (world : σ) :
    ((ReadPointCloudP env filename pointcloud params world).result = true ↔
      ∃ codec,
        find file_extension_to_pointcloud_read_function (effectiveFormat filename params)
          = some codec ∧
        (env.read codec filename pointcloud params world).1 = true) ∧
    (∀ codec,
      find file_extension_to_pointcloud_read_function (effectiveFormat filename params)
        = some codec →
      (ReadPointCloudP env filename pointcloud params world).calls =
        [{ codec := codec, filename := filename, pointcloud := pointcloud,
           params := params }] ∧
      (ReadPointCloudP env filename pointcloud params world).result =
        (env.read codec filename pointcloud params world).1) ∧
    (effectiveFormat filename params ∉ readKeys →
      (ReadPointCloudP env filename pointcloud params world).result = false) := by
  refine ⟨?_, ?_, ?_⟩
  · unfold ReadPointCloudP effectiveFormat
    cases hf : find file_extension_to_pointcloud_read_function
        (if params.format = "auto" then GetFileExtensionInLowerCase filename
         else params.format) with
    | none => simp [hf]
    | some c => simp [hf]
  · intro codec hc
    unfold effectiveFormat at hc
    simp only [ReadPointCloudP, hc, and_self]
  · intro h
    have hnone : find file_extension_to_pointcloud_read_function
        (if params.format = "auto" then GetFileExtensionInLowerCase filename
         else params.format) = none :=
      (find_eq_none_iff _ _).mpr h
    simp only [ReadPointCloudP, hnone]

/-- Witness of C2: a registered format whose codec fails gives false even though the
format resolves, and the one call made is the PLY reader with the caller's arguments. -/
theorem ReadPointCloudP_result_witness :
    (ReadPointCloudP (stubCodecs false {}) "bunny.PLY" {} {} ()).calls =
        [{ codec := ReadCodec.ReadPointCloudFromPLY, filename := "bunny.PLY",
           pointcloud := {}, params := {} }] ∧
    (ReadPointCloudP (stubCodecs false {}) "bunny.PLY" {} {} ()).result = false :=
  ((ReadPointCloudP_result (stubCodecs false {}) "bunny.PLY" {} {} ()).2.1
    ReadCodec.ReadPointCloudFromPLY (by decide))

/-- C3, refuted as stated: the XYZ reader fails and leaves one NaN point behind; with
the default flags `ReadPointCloudP` still filters, so the cloud after the call is
empty and differs from the cloud the codec left. -/
theorem ReadPointCloudP_filters_after_failure :
    find file_extension_to_pointcloud_read_function (effectiveFormat "scan.xyz" {})
      = some ReadCodec.ReadPointCloudFromXYZ ∧
    ((stubCodecs false { points_ := [nanPoint] }).read ReadCodec.ReadPointCloudFromXYZ
      "scan.xyz" {} {} ()).1 = false ∧
    (ReadPointCloudP (stubCodecs false { points_ := [nanPoint] }) "scan.xyz" {} {}
      ()).pointcloud = {} ∧
    (ReadPointCloudP (stubCodecs false { points_ := [nanPoint] }) "scan.xyz" {} {}
      ()).pointcloud ≠
      ((stubCodecs false { points_ := [nanPoint] }).read ReadCodec.ReadPointCloudFromXYZ
        "scan.xyz" {} {} ()).2.1 := by
  decide

/-- C3, amended: once a codec is registered for the effective format, the cloud after
`ReadPointCloudP` is decided by the two flags alone, whether the codec returned
success or failure: with `remove_nan_points` or `remove_infinite_points` set it is
`RemoveNonFinitePoints` of the cloud the codec left behind, and with both flags false
it is exactly the cloud the codec left behind. -/
theorem ReadPointCloudP_filter {σ : Type} (env : Codecs σ) (filename : String)
    (pointcloud : PointCloud) (params : ReadPointCloudParams) (world : σ)
    (codec : ReadCodec)
    (h : find file_extension_to_pointcloud_read_function (effectiveFormat filename params)
      = some codec) :
    ((params.remove_nan_points = true ∨ params.remove_infinite_points = true) →
      (ReadPointCloudP env filename pointcloud params world).pointcloud =
        (env.read codec filename pointcloud params world).2.1.RemoveNonFinitePoints
          params.remove_nan_points params.remove_infinite_points) ∧
    ((params.remove_nan_points = false ∧ params.remove_infinite_points = false) →
      (ReadPointCloudP env filename pointcloud params world).pointcloud =
        (env.read codec filename pointcloud params world).2.1) := by
  unfold effectiveFormat at h
  constructor
  · intro hflag
    simp only [ReadPointCloudP, h, Bool.or_eq_true, hflag, if_true]
  · rintro ⟨hn, hi⟩
    simp [ReadPointCloudP, h, hn, hi]

/-- Witness of the amended C3: a failing XYZ reader that leaves a NaN point and
the origin; the NaN point is removed although the read failed. -/
theorem ReadPointCloudP_filter_witness :
    find file_extension_to_pointcloud_read_function (effectiveFormat "scan.xyz" {})
      = some ReadCodec.ReadPointCloudFromXYZ ∧
    (ReadPointCloudP (stubCodecs false { points_ := [nanPoint, origin] }) "scan.xyz" {} {}
      ()).pointcloud = { points_ := [origin] } :=
  ⟨by decide,
   ((ReadPointCloudP_filter (stubCodecs false { points_ := [nanPoint, origin] })
      "scan.xyz" {} {} () ReadCodec.ReadPointCloudFromXYZ (by decide)).1
      (Or.inl rfl)).trans (by decide)⟩

/-! ## The write path -/

/-- C4: when the lower-cased extension of the file name is not a key of the write
registry, `WritePointCloudP` (for every configuration) and `WritePointCloud` (for
every flag value) return false and invoke no write codec; the cloud handed in, and
the outside state, are unchanged. -/
theorem WritePointCloud_unregistered {σ : Type} (env : Codecs σ) (filename : String)
    (pointcloud : PointCloud) (params : WritePointCloudParams)
    (write_ascii compressed print_progress : Bool) (world : σ)
    (h : GetFileExtensionInLowerCase filename ∉ writeKeys) :
    ((WritePointCloudP env filename pointcloud params world).result = false ∧
      (WritePointCloudP env filename pointcloud params world).calls = [] ∧
      (WritePointCloudP env filename pointcloud params world).pointcloud = pointcloud ∧
      (WritePointCloudP env filename pointcloud params world).world = world) ∧
    ((WritePointCloud env filename pointcloud write_ascii compressed print_progress
        world).result = false ∧
      (WritePointCloud env filename pointcloud write_ascii compressed print_progress
        world).calls = [] ∧
      (WritePointCloud env filename pointcloud write_ascii compressed print_progress
        world).pointcloud = pointcloud ∧
      (WritePointCloud env filename pointcloud write_ascii compressed print_progress
        world).world = world) := by
  have hnone : find file_extension_to_pointcloud_write_function
      (GetFileExtensionInLowerCase filename) = none :=
    (find_eq_none_iff _ _).mpr h
  simp only [WritePointCloud, WritePointCloudP, hnone, and_self]

/-- Witness of C4: a file name without a registered extension, codecs that would
succeed if they were called. -/
theorem WritePointCloud_unregistered_witness :
    GetFileExtensionInLowerCase "mesh.stl" ∉ writeKeys ∧
    (WritePointCloudP (stubCodecs true {}) "mesh.stl" { points_ := [origin] } {} ()).calls
      = [] ∧
    (WritePointCloud (stubCodecs true {}) "mesh.stl" { points_ := [origin] } true true
      false ()).result = false :=
  ⟨by decide,
   (WritePointCloud_unregistered (stubCodecs true {}) "mesh.stl" { points_ := [origin] } {}
      true true false () (by decide)).1.2.1,
   (WritePointCloud_unregistered (stubCodecs true {}) "mesh.stl" { points_ := [origin] } {}
      true true false () (by decide)).2.1⟩

/-- C5: the write codec is chosen from the file name alone. When the lower-cased
extension of `filename` is registered with `codec`, `WritePointCloudP` invokes that
codec once with the unchanged `(filename, cloud, params)` and returns the codec's
`bool`; this holds for every `params`, so `write_ascii`, `compressed` and the
progress callback neither change the codec nor turn its success into a failure. -/
theorem WritePointCloudP_registered {σ : Type} (env : Codecs σ) (filename : String)
    (pointcloud : PointCloud) (params : WritePointCloudParams) (world : σ)
    (codec : WriteCodec)
    (h : find file_extension_to_pointcloud_write_function
      (GetFileExtensionInLowerCase filename) = some codec) :
    (WritePointCloudP env filename pointcloud params world).calls =
      [{ codec := codec, filename := filename, pointcloud := pointcloud,
         params := params }] ∧
    (WritePointCloudP env filename pointcloud params world).result =
      (env.write codec filename pointcloud params world).1 ∧
    (WritePointCloudP env filename pointcloud params world).pointcloud = pointcloud ∧
    (WritePointCloudP env filename pointcloud params world).world =
      (env.write codec filename pointcloud params world).2 := by
  simp only [WritePointCloudP, h, and_self]

/-- Witness of C5: an ASCII, compressed write with a caller callback to a `.PCD` file
goes to the PCD writer and succeeds with it. -/
theorem WritePointCloudP_registered_witness :
    find file_extension_to_pointcloud_write_function
      (GetFileExtensionInLowerCase "out/cloud.PCD") = some WriteCodec.WritePointCloudToPCD ∧
    (WritePointCloudP (stubCodecs true {}) "out/cloud.PCD" { points_ := [origin] }
      { write_ascii := IsAscii.Ascii, compressed := Compressed.Compressed,
        update_progress := ProgressFn.callback 7 } ()).calls =
      [{ codec := WriteCodec.WritePointCloudToPCD, filename := "out/cloud.PCD",
         pointcloud := { points_ := [origin] },
         params := { write_ascii := IsAscii.Ascii, compressed := Compressed.Compressed,
                     update_progress := ProgressFn.callback 7 } }] ∧
    (WritePointCloudP (stubCodecs true {}) "out/cloud.PCD" { points_ := [origin] }
      { write_ascii := IsAscii.Ascii, compressed := Compressed.Compressed,
        update_progress := ProgressFn.callback 7 } ()).result = true :=
  ⟨by decide,
   (WritePointCloudP_registered (stubCodecs true {}) "out/cloud.PCD" { points_ := [origin] }
      { write_ascii := IsAscii.Ascii, compressed := Compressed.Compressed,
        update_progress := ProgressFn.callback 7 } () WriteCodec.WritePointCloudToPCD
      (by decide)).1,
   (WritePointCloudP_registered (stubCodecs true {}) "out/cloud.PCD" { points_ := [origin] }
      { write_ascii := IsAscii.Ascii, compressed := Compressed.Compressed,
        update_progress := ProgressFn.callback 7 } () WriteCodec.WritePointCloudToPCD
      (by decide)).2.1⟩

/-! ## The factory -/

/-- C6, evaluated at the failing input: the XYZ reader succeeds and delivers one NaN
point. `CreatePointCloudFromFile` with `print_progress = false` returns that NaN
point, whereas `ReadPointCloud` on a fresh cloud with the same format and both
removal flags true returns the empty cloud, whatever its own `print_progress` is. -/
theorem CreatePointCloudFromFile_keeps_nan :
    (CreatePointCloudFromFile (stubCodecs true { points_ := [nanPoint] }) "scan.xyz" "auto"
      false ()).pointcloud = { points_ := [nanPoint] } ∧
    (∀ print_progress : Bool,
      (ReadPointCloud (stubCodecs true { points_ := [nanPoint] }) "scan.xyz" {} "auto" true
        true print_progress ()).pointcloud = {}) ∧
    (CreatePointCloudFromFile (stubCodecs true { points_ := [nanPoint] }) "scan.xyz" "auto"
      false ()).calls.map (fun c => c.params.remove_nan_points) = [false] := by
  decide

/-- C7, evaluated at the failing input: the PCD reader fails after it has put one
point, one normal and one colour into the cloud. The read reports failure and
`CreatePointCloudFromFile` returns that cloud as it is, not an empty one. -/
theorem CreatePointCloudFromFile_not_empty_on_failure :
    (CreatePointCloudFromFile
      (stubCodecs false { points_ := [origin], normals_ := [origin], colors_ := [origin] })
      "scan.pcd" "auto" false ()).result = false ∧
    (CreatePointCloudFromFile
      (stubCodecs false { points_ := [origin], normals_ := [origin], colors_ := [origin] })
      "scan.pcd" "auto" false ()).pointcloud =
      { points_ := [origin], normals_ := [origin], colors_ := [origin] } := by
  decide

/-! ## Letter case of format keys -/

/-- C8, refuted as stated: `"PLY"` equals the registered key `"ply"` up to ASCII
letter case, yet supplied as the explicit `config.format` it resolves to no codec:
`ReadPointCloudP` calls nothing and returns false, although the codecs would succeed. -/
theorem ReadPointCloudP_override_is_case_sensitive :
    find file_extension_to_pointcloud_read_function "ply"
      = some ReadCodec.ReadPointCloudFromPLY ∧
    eqUpToAsciiCase "PLY" "ply" ∧
    (ReadPointCloudP (stubCodecs true {}) "bunny.ply" {} { format := "PLY" } ()).calls = [] ∧
    (ReadPointCloudP (stubCodecs true {}) "bunny.ply" {} { format := "PLY" } ()).result
      = false := by
  decide

/-- C8, amended: for a registered extension `e` with read codec `codec`, a file name
whose extension equals `e` up to ASCII letter case resolves to `codec` under
`config.format = "auto"`; an explicit `config.format` is looked up verbatim and
resolves to `codec` exactly when it is spelt `e`. -/
theorem ReadPointCloudP_letter_case {σ : Type} (env : Codecs σ) (filename : String)
    (pointcloud : PointCloud) (params : ReadPointCloudParams) (world : σ)
    (e : String) (codec : ReadCodec)
    (he : find file_extension_to_pointcloud_read_function e = some codec) :
    (params.format = "auto" → eqUpToAsciiCase (rawFileExtension filename) e →
      (ReadPointCloudP env filename pointcloud params world).calls =
        [{ codec := codec, filename := filename, pointcloud := pointcloud,
           params := params }]) ∧
    (params.format ≠ "auto" →
      ((ReadPointCloudP env filename pointcloud params world).calls =
        [{ codec := codec, filename := filename, pointcloud := pointcloud,
           params := params }] ↔ params.format = e)) := by
  constructor
  · intro hauto hcase
    have hext : GetFileExtensionInLowerCase filename = e := by
      unfold GetFileExtensionInLowerCase
      rw [hcase]
      exact find_read_lower e codec he
    simp only [ReadPointCloudP, hauto, if_true, hext, he]
  · intro hexp
    constructor
    · intro hcalls
      cases hf : find file_extension_to_pointcloud_read_function params.format with
      | none => simp [ReadPointCloudP, hexp, hf] at hcalls
      | some c =>
        simp only [ReadPointCloudP, hexp, if_false, hf] at hcalls
        have hc : c = codec := by
          have := congrArg (fun l => l.map (fun x => x.codec)) hcalls
          simpa using this
        exact find_read_inj params.format e codec (hc ▸ hf) he
    · intro hfmt
      have hf : find file_extension_to_pointcloud_read_function params.format
          = some codec := hfmt ▸ he
      simp only [ReadPointCloudP, hexp, if_false, hf]

/-- Witness of the amended C8: `bunny.PLY` read under `"auto"` goes to the PLY reader. -/
theorem ReadPointCloudP_letter_case_witness :
    find file_extension_to_pointcloud_read_function "ply"
      = some ReadCodec.ReadPointCloudFromPLY ∧
    eqUpToAsciiCase (rawFileExtension "bunny.PLY") "ply" ∧
    (ReadPointCloudP (stubCodecs true {}) "bunny.PLY" {} {} ()).calls =
      [{ codec := ReadCodec.ReadPointCloudFromPLY, filename := "bunny.PLY",
         pointcloud := {}, params := {} }] :=
  ⟨by decide, by decide,
   (ReadPointCloudP_letter_case (stubCodecs true {}) "bunny.PLY" {} {} () "ply"
      ReadCodec.ReadPointCloudFromPLY (by decide)).1 rfl (by decide)⟩

/-! ## The two registries -/

/-- C10: the read registry and the write registry have the same six keys `xyz`,
`xyzn`, `xyzrgb`, `ply`, `pcd`, `pts`, without repetition, and each key is mapped to
the read codec and to the write codec of the format of that name. Hence for every
file name `WritePointCloudP` invokes a codec if and only if `ReadPointCloudP` with
format `"auto"` invokes one, and both do for the ten file names of `g_pc_args`. -/
theorem registries_agree {σ : Type} (env : Codecs σ) :
    readKeys = ["xyz", "xyzn", "xyzrgb", "ply", "pcd", "pts"] ∧
    writeKeys = ["xyz", "xyzn", "xyzrgb", "ply", "pcd", "pts"] ∧
    readKeys.Nodup ∧
    file_extension_to_pointcloud_read_function.map (fun e => (e.1, e.2.fileFormat)) =
      [FileFormat.XYZ, FileFormat.XYZN, FileFormat.XYZRGB, FileFormat.PLY, FileFormat.PCD,
       FileFormat.PTS].map (fun f => (f.extension, f)) ∧
    file_extension_to_pointcloud_write_function.map (fun e => (e.1, e.2.fileFormat)) =
      [FileFormat.XYZ, FileFormat.XYZN, FileFormat.XYZRGB, FileFormat.PLY, FileFormat.PCD,
       FileFormat.PTS].map (fun f => (f.extension, f)) ∧
    (∀ (filename : String) (pointcloud : PointCloud) (rp : ReadPointCloudParams)
        (wp : WritePointCloudParams) (world : σ),
      (WritePointCloudP env filename pointcloud wp world).calls ≠ [] ↔
        (ReadPointCloudP env filename pointcloud { rp with format := "auto" } world).calls
          ≠ []) ∧
    (∀ args ∈ benchmarks.g_pc_args,
      ∀ (pointcloud : PointCloud) (rp : ReadPointCloudParams)
        (wp : WritePointCloudParams) (world : σ),
      (WritePointCloudP env args.filename pointcloud wp world).calls ≠ [] ∧
      (ReadPointCloudP env args.filename pointcloud { rp with format := "auto" }
        world).calls ≠ []) := by
  have hsame : writeKeys = readKeys := by decide
  have hiff : ∀ (filename : String) (pointcloud : PointCloud) (rp : ReadPointCloudParams)
      (wp : WritePointCloudParams) (world : σ),
      (WritePointCloudP env filename pointcloud wp world).calls ≠ [] ↔
        (ReadPointCloudP env filename pointcloud { rp with format := "auto" } world).calls
          ≠ [] := by
    intro filename pointcloud rp wp world
    rw [WritePointCloudP_calls_ne_nil_iff, ReadPointCloudP_calls_ne_nil_iff, hsame]
    simp [effectiveFormat]
  have hbench : ∀ args ∈ benchmarks.g_pc_args,
      GetFileExtensionInLowerCase args.filename ∈ writeKeys := by decide
  refine ⟨by decide, by decide, by decide, by decide, by decide, hiff, ?_⟩
  intro args hargs pointcloud rp wp world
  have hw := (WritePointCloudP_calls_ne_nil_iff env args.filename pointcloud wp world).mpr
    (hbench args hargs)
  exact ⟨hw, (hiff args.filename pointcloud rp wp world).mp hw⟩

/-! ## The flag-taking and the struct-taking reader -/

/-- The dispatch of `ReadPointCloud` and of `ReadPointCloudP` with params
`{format, remove_nan, remove_inf}`, for arbitrary codecs: the same effective format,
the same codec or none, the same file name and cloud handed over, the same failure
without a codec for an unregistered format, and with a registered format the `bool`
of that codec and the same flag-driven filtering; the codec is run on `flagParams`
in one call and on the caller's params in the other. -/
theorem ReadPointCloud_dispatch_agrees {σ : Type} (env : Codecs σ)
    (filename : String) (pointcloud : PointCloud) (file_format : String)
    (remove_nan remove_inf print_progress : Bool) (progress : ProgressFn) (world : σ) :
    effectiveFormat filename
        (flagParams filename file_format remove_nan remove_inf print_progress) =
      effectiveFormat filename (structParams file_format remove_nan remove_inf progress) ∧
    (ReadPointCloud env filename pointcloud file_format remove_nan remove_inf print_progress
        world).calls.map (fun c => (c.codec, c.filename, c.pointcloud)) =
      (ReadPointCloudP env filename pointcloud
        (structParams file_format remove_nan remove_inf progress) world).calls.map
        (fun c => (c.codec, c.filename, c.pointcloud)) ∧
    (file_format = "auto" → GetFileExtensionInLowerCase filename = "auto" →
      (ReadPointCloud env filename pointcloud file_format remove_nan remove_inf
        print_progress world).result = false ∧
      (ReadPointCloud env filename pointcloud file_format remove_nan remove_inf
        print_progress world).calls = [] ∧
      (ReadPointCloudP env filename pointcloud
        (structParams file_format remove_nan remove_inf progress) world).result = false ∧
      (ReadPointCloudP env filename pointcloud
        (structParams file_format remove_nan remove_inf progress) world).calls = []) ∧
    (effectiveFormat filename (structParams file_format remove_nan remove_inf progress)
        ∉ readKeys →
      (ReadPointCloud env filename pointcloud file_format remove_nan remove_inf
        print_progress world).result = false ∧
      (ReadPointCloud env filename pointcloud file_format remove_nan remove_inf
        print_progress world).calls = [] ∧
      (ReadPointCloud env filename pointcloud file_format remove_nan remove_inf
        print_progress world).pointcloud = pointcloud ∧
      (ReadPointCloudP env filename pointcloud
        (structParams file_format remove_nan remove_inf progress) world).result = false ∧
      (ReadPointCloudP env filename pointcloud
        (structParams file_format remove_nan remove_inf progress) world).calls = [] ∧
      (ReadPointCloudP env filename pointcloud
        (structParams file_format remove_nan remove_inf progress) world).pointcloud
        = pointcloud) ∧
    (∀ codec : ReadCodec,
      find file_extension_to_pointcloud_read_function
        (effectiveFormat filename (structParams file_format remove_nan remove_inf progress))
        = some codec →
      (ReadPointCloud env filename pointcloud file_format remove_nan remove_inf
        print_progress world).result =
        (env.read codec filename pointcloud
          (flagParams filename file_format remove_nan remove_inf print_progress) world).1 ∧
      (ReadPointCloud env filename pointcloud file_format remove_nan remove_inf
        print_progress world).pointcloud =
        postReadFilter remove_nan remove_inf
          (env.read codec filename pointcloud
            (flagParams filename file_format remove_nan remove_inf print_progress)
            world).2.1 ∧
      (ReadPointCloudP env filename pointcloud
        (structParams file_format remove_nan remove_inf progress) world).result =
        (env.read codec filename pointcloud
          (structParams file_format remove_nan remove_inf progress) world).1 ∧
      (ReadPointCloudP env filename pointcloud
        (structParams file_format remove_nan remove_inf progress) world).pointcloud =
        postReadFilter remove_nan remove_inf
          (env.read codec filename pointcloud
            (structParams file_format remove_nan remove_inf progress) world).2.1 ∧
      (env.read codec filename pointcloud
          (flagParams filename file_format remove_nan remove_inf print_progress) world =
        env.read codec filename pointcloud
          (structParams file_format remove_nan remove_inf progress) world →
        (ReadPointCloud env filename pointcloud file_format remove_nan remove_inf
          print_progress world).result =
          (ReadPointCloudP env filename pointcloud
            (structParams file_format remove_nan remove_inf progress) world).result ∧
        (ReadPointCloud env filename pointcloud file_format remove_nan remove_inf
          print_progress world).pointcloud =
          (ReadPointCloudP env filename pointcloud
            (structParams file_format remove_nan remove_inf progress) world).pointcloud ∧
        (ReadPointCloud env filename pointcloud file_format remove_nan remove_inf
          print_progress world).world =
          (ReadPointCloudP env filename pointcloud
            (structParams file_format remove_nan remove_inf progress) world).world)) := by
  have heff := effectiveFormat_flagParams filename file_format remove_nan remove_inf
    print_progress progress
  have hflag := ReadPointCloud_eq_ReadPointCloudP env filename pointcloud file_format
    remove_nan remove_inf print_progress world
  have hnone : effectiveFormat filename
      (structParams file_format remove_nan remove_inf progress) ∉ readKeys →
      ReadPointCloud env filename pointcloud file_format remove_nan remove_inf
          print_progress world =
        { result := false, pointcloud := pointcloud, world := world, calls := [] } ∧
      ReadPointCloudP env filename pointcloud
          (structParams file_format remove_nan remove_inf progress) world =
        { result := false, pointcloud := pointcloud, world := world, calls := [] } := by
    intro hkey
    have hf := (find_eq_none_iff file_extension_to_pointcloud_read_function _).mpr hkey
    refine ⟨?_, ReadPointCloudP_of_find_none env filename pointcloud _ world hf⟩
    rw [hflag]
    exact ReadPointCloudP_of_find_none env filename pointcloud _ world (heff ▸ hf)
  have hsome : ∀ codec : ReadCodec,
      find file_extension_to_pointcloud_read_function
        (effectiveFormat filename (structParams file_format remove_nan remove_inf progress))
        = some codec →
      ReadPointCloud env filename pointcloud file_format remove_nan remove_inf
          print_progress world =
        { result := (env.read codec filename pointcloud
            (flagParams filename file_format remove_nan remove_inf print_progress) world).1
          pointcloud := postReadFilter remove_nan remove_inf
            (env.read codec filename pointcloud
              (flagParams filename file_format remove_nan remove_inf print_progress)
              world).2.1
          world := (env.read codec filename pointcloud
            (flagParams filename file_format remove_nan remove_inf print_progress)
            world).2.2
          calls := [{ codec := codec, filename := filename, pointcloud := pointcloud,
                      params := flagParams filename file_format remove_nan remove_inf
                        print_progress }] } ∧
      ReadPointCloudP env filename pointcloud
          (structParams file_format remove_nan remove_inf progress) world =
        { result := (env.read codec filename pointcloud
            (structParams file_format remove_nan remove_inf progress) world).1
          pointcloud := postReadFilter remove_nan remove_inf
            (env.read codec filename pointcloud
              (structParams file_format remove_nan remove_inf progress) world).2.1
          world := (env.read codec filename pointcloud
            (structParams file_format remove_nan remove_inf progress) world).2.2
          calls := [{ codec := codec, filename := filename, pointcloud := pointcloud,
                      params := structParams file_format remove_nan remove_inf
                        progress }] } := by
    intro codec hf
    refine ⟨?_, ReadPointCloudP_of_find_some env filename pointcloud _ world codec hf⟩
    rw [hflag]
    exact ReadPointCloudP_of_find_some env filename pointcloud _ world codec (heff ▸ hf)
  refine ⟨heff, ?_, ?_, ?_, ?_⟩
  · cases hf : find file_extension_to_pointcloud_read_function
        (effectiveFormat filename
          (structParams file_format remove_nan remove_inf progress)) with
    | none =>
      have hkey := (find_eq_none_iff _ _).mp hf
      rw [(hnone hkey).1, (hnone hkey).2]
    | some codec =>
      rw [(hsome codec hf).1, (hsome codec hf).2]
      rfl
  · intro hauto hext
    have hkey : effectiveFormat filename
        (structParams file_format remove_nan remove_inf progress) ∉ readKeys := by
      have : effectiveFormat filename
          (structParams file_format remove_nan remove_inf progress) = "auto" := by
        simp only [effectiveFormat, structParams, hauto, if_true, hext]
      rw [this]
      decide
    rw [(hnone hkey).1, (hnone hkey).2]
    exact ⟨rfl, rfl, rfl, rfl⟩
  · intro hkey
    rw [(hnone hkey).1, (hnone hkey).2]
    exact ⟨rfl, rfl, rfl, rfl, rfl, rfl⟩
  · intro codec hf
    rw [(hsome codec hf).1, (hsome codec hf).2]
    refine ⟨rfl, rfl, rfl, rfl, ?_⟩
    intro hsame
    simp only [hsame, and_self]

/-- C11: for codecs whose answer depends on their params through the two removal
flags at most, and for every file name, cloud, format string, flag values and
progress function, `ReadPointCloud(filename, cloud, format, remove_nan, remove_inf,
print_progress)` and `ReadPointCloudP` with params `{format, remove_nan, remove_inf}`
look up the same effective format (resolving `"auto"` before the call and again
inside it changes nothing), select the same read codec or none and hand it the same
file name, cloud and flags, return the same `bool`, and leave the same filtered
cloud and the same outside state; for a file whose extension is literally `"auto"`,
read with format `"auto"`, both fail with no codec invoked. -/
theorem ReadPointCloud_agrees_with_ReadPointCloudP {σ : Type} (env : Codecs σ)
    (hcodecs : env.readersUseOnlyFlags)
    (filename : String) (pointcloud : PointCloud) (file_format : String)
    (remove_nan remove_inf print_progress : Bool) (progress : ProgressFn) (world : σ) :
    effectiveFormat filename
        (flagParams filename file_format remove_nan remove_inf print_progress) =
      effectiveFormat filename (structParams file_format remove_nan remove_inf progress) ∧
    (ReadPointCloud env filename pointcloud file_format remove_nan remove_inf print_progress
        world).calls.map
        (fun c => (c.codec, c.filename, c.pointcloud, c.params.remove_nan_points,
          c.params.remove_infinite_points)) =
      (ReadPointCloudP env filename pointcloud
        (structParams file_format remove_nan remove_inf progress) world).calls.map
        (fun c => (c.codec, c.filename, c.pointcloud, c.params.remove_nan_points,
          c.params.remove_infinite_points)) ∧
    (ReadPointCloud env filename pointcloud file_format remove_nan remove_inf print_progress
        world).result =
      (ReadPointCloudP env filename pointcloud
        (structParams file_format remove_nan remove_inf progress) world).result ∧
    (ReadPointCloud env filename pointcloud file_format remove_nan remove_inf print_progress
        world).pointcloud =
      (ReadPointCloudP env filename pointcloud
        (structParams file_format remove_nan remove_inf progress) world).pointcloud ∧
    (ReadPointCloud env filename pointcloud file_format remove_nan remove_inf print_progress
        world).world =
      (ReadPointCloudP env filename pointcloud
        (structParams file_format remove_nan remove_inf progress) world).world ∧
    (file_format = "auto" → GetFileExtensionInLowerCase filename = "auto" →
      (ReadPointCloud env filename pointcloud file_format remove_nan remove_inf
        print_progress world).result = false ∧
      (ReadPointCloud env filename pointcloud file_format remove_nan remove_inf
        print_progress world).calls = [] ∧
      (ReadPointCloudP env filename pointcloud
        (structParams file_format remove_nan remove_inf progress) world).result = false ∧
      (ReadPointCloudP env filename pointcloud
        (structParams file_format remove_nan remove_inf progress) world).calls = []) := by
  have hd := ReadPointCloud_dispatch_agrees env filename pointcloud file_format remove_nan
    remove_inf print_progress progress world
  have hflag := ReadPointCloud_eq_ReadPointCloudP env filename pointcloud file_format
    remove_nan remove_inf print_progress world
  have hread : ∀ codec : ReadCodec,
      env.read codec filename pointcloud
          (flagParams filename file_format remove_nan remove_inf print_progress) world =
        env.read codec filename pointcloud
          (structParams file_format remove_nan remove_inf progress) world :=
    fun codec => hcodecs codec filename pointcloud _ _ world rfl rfl
  have hcalls :
      (ReadPointCloud env filename pointcloud file_format remove_nan remove_inf
          print_progress world).calls.map
          (fun c => (c.codec, c.filename, c.pointcloud, c.params.remove_nan_points,
            c.params.remove_infinite_points)) =
        (ReadPointCloudP env filename pointcloud
          (structParams file_format remove_nan remove_inf progress) world).calls.map
          (fun c => (c.codec, c.filename, c.pointcloud, c.params.remove_nan_points,
            c.params.remove_infinite_points)) := by
    cases hf : find file_extension_to_pointcloud_read_function
        (effectiveFormat filename
          (structParams file_format remove_nan remove_inf progress)) with
    | none =>
      have hf' := hd.1 ▸ hf
      rw [hflag, ReadPointCloudP_of_find_none env filename pointcloud _ world hf,
        ReadPointCloudP_of_find_none env filename pointcloud _ world hf']
    | some codec =>
      have hf' := hd.1 ▸ hf
      rw [hflag, ReadPointCloudP_of_find_some env filename pointcloud _ world codec hf,
        ReadPointCloudP_of_find_some env filename pointcloud _ world codec hf']
      rfl
  have hsame :
      (ReadPointCloud env filename pointcloud file_format remove_nan remove_inf
          print_progress world).result =
        (ReadPointCloudP env filename pointcloud
          (structParams file_format remove_nan remove_inf progress) world).result ∧
      (ReadPointCloud env filename pointcloud file_format remove_nan remove_inf
          print_progress world).pointcloud =
        (ReadPointCloudP env filename pointcloud
          (structParams file_format remove_nan remove_inf progress) world).pointcloud ∧
      (ReadPointCloud env filename pointcloud file_format remove_nan remove_inf
          print_progress world).world =
        (ReadPointCloudP env filename pointcloud
          (structParams file_format remove_nan remove_inf progress) world).world := by
    cases hf : find file_extension_to_pointcloud_read_function
        (effectiveFormat filename
          (structParams file_format remove_nan remove_inf progress)) with
    | none =>
      have hf' := hd.1 ▸ hf
      rw [hflag, ReadPointCloudP_of_find_none env filename pointcloud _ world hf,
        ReadPointCloudP_of_find_none env filename pointcloud _ world hf']
      exact ⟨rfl, rfl, rfl⟩
    | some codec =>
      exact (hd.2.2.2.2 codec hf).2.2.2.2 (hread codec)
  exact ⟨hd.1, hcalls, hsame.1, hsame.2.1, hsame.2.2, hd.2.2.1⟩

/-- Witness of C11: codecs that answer every params alike; `bunny.PLY` read with
format `"auto"` gives the same `bool` and the same filtered cloud in both calls, and
`scan.auto` read with format `"auto"` fails in both calls without a codec. -/
theorem ReadPointCloud_agrees_with_ReadPointCloudP_witness :
    (stubCodecs true { points_ := [nanPoint, origin] }).readersUseOnlyFlags ∧
    ((ReadPointCloud (stubCodecs true { points_ := [nanPoint, origin] }) "bunny.PLY" {}
        "auto" true false true ()).result =
        (ReadPointCloudP (stubCodecs true { points_ := [nanPoint, origin] }) "bunny.PLY" {}
          (structParams "auto" true false ProgressFn.empty) ()).result ∧
      (ReadPointCloud (stubCodecs true { points_ := [nanPoint, origin] }) "bunny.PLY" {}
        "auto" true false true ()).pointcloud =
        (ReadPointCloudP (stubCodecs true { points_ := [nanPoint, origin] }) "bunny.PLY" {}
          (structParams "auto" true false ProgressFn.empty) ()).pointcloud) ∧
    ((ReadPointCloud (stubCodecs true { points_ := [nanPoint, origin] }) "scan.auto" {}
        "auto" true true false ()).result = false ∧
      (ReadPointCloud (stubCodecs true { points_ := [nanPoint, origin] }) "scan.auto" {}
        "auto" true true false ()).calls = [] ∧
      (ReadPointCloudP (stubCodecs true { points_ := [nanPoint, origin] }) "scan.auto" {}
        (structParams "auto" true true ProgressFn.empty) ()).result = false ∧
      (ReadPointCloudP (stubCodecs true { points_ := [nanPoint, origin] }) "scan.auto" {}
        (structParams "auto" true true ProgressFn.empty) ()).calls = []) :=
  ⟨fun _ _ _ _ _ _ _ _ => rfl,
   ⟨(ReadPointCloud_agrees_with_ReadPointCloudP
      (stubCodecs true { points_ := [nanPoint, origin] }) (fun _ _ _ _ _ _ _ _ => rfl)
      "bunny.PLY" {} "auto" true false true ProgressFn.empty ()).2.2.1,
    (ReadPointCloud_agrees_with_ReadPointCloudP
      (stubCodecs true { points_ := [nanPoint, origin] }) (fun _ _ _ _ _ _ _ _ => rfl)
      "bunny.PLY" {} "auto" true false true ProgressFn.empty ()).2.2.2.1⟩,
   (ReadPointCloud_agrees_with_ReadPointCloudP
      (stubCodecs true { points_ := [nanPoint, origin] }) (fun _ _ _ _ _ _ _ _ => rfl)
      "scan.auto" {} "auto" true true false ProgressFn.empty ()).2.2.2.2.2 rfl (by decide)⟩

end open3d
